import Mathlib

/-!
Verification development for the onboarding-hub browser client.

The definitions below are a shallow embedding of the JavaScript source:
  * `pages/Partners.js`, `pages/Documents.js`, `pages/Templates.js` —
    role-scoped Firestore query construction;
  * `main.js` — `normalizePath` and `renderRoute` dispatch;
  * `constants/onboardingStages.js` — stage cache, save, and `getNextStage`;
  * `pages/Settings.js` (`pages/Login.js` file) — the stage-list editor.
Firestore itself is modelled as explicit state (stored document plus the
module-level cache variables); asynchronous calls become explicit outcome
parameters.
-/

namespace OnboardingHub

/-- A clause of a Firestore query as built by the page renderers:
`where(field, "==", value)` or `orderBy(field, "desc")`. -/
inductive QueryClause where
  | whereEq (field value : String)
  | orderByDesc (field : String)
  deriving DecidableEq, Repr

/-- JS truthiness of a `string | null` value: `null` and `""` are falsy. -/
def truthy : Option String → Bool
  | none => false
  | some s => !s.isEmpty

/-- Query built by `renderPartnersPage` (pages/Partners.js, lines 24–36):
admin/transferz get an unfiltered query, a partner user with a truthy
`partnerId` gets `where("partnerId","==",partnerId)`, anyone else gets no
query at all (the access-denied branch). -/
def partnersQuery (userRole : String) (partnerId : Option String) :
    Option (List QueryClause) :=
  if userRole = "admin" ∨ userRole = "transferz" then
    some []
  else if userRole = "partner" ∧ truthy partnerId then
    some [.whereEq "partnerId" (partnerId.getD "")]
  else
    none

/-- Query built by `renderTemplatesPage` (pages/Templates.js, lines 22–39). -/
def templatesQuery (userRole : String) (partnerId : Option String) :
    Option (List QueryClause) :=
  if userRole = "admin" ∨ userRole = "transferz" then
    some [.orderByDesc "updatedAt"]
  else if userRole = "partner" ∧ truthy partnerId then
    some [.whereEq "partnerId" (partnerId.getD ""), .orderByDesc "updatedAt"]
  else
    none

/-- Query built by the list-style `renderDocumentsPage`
(pages/Documents.js, lines 22–39); identical shape to the templates page. -/
def documentsQuery (userRole : String) (partnerId : Option String) :
    Option (List QueryClause) :=
  if userRole = "admin" ∨ userRole = "transferz" then
    some [.orderByDesc "updatedAt"]
  else if userRole = "partner" ∧ truthy partnerId then
    some [.whereEq "partnerId" (partnerId.getD ""), .orderByDesc "updatedAt"]
  else
    none

/-- Query built by `loadDocuments` inside the folder-aware
`renderDocumentsPage` (pages/Documents.js, lines 131–160): the optional
`folderName` adds a `where("folder","==",folderName)` clause, partner users
always get the `partnerId` clause, and other roles get no query
(`loadDocuments` returns `[]` without querying). -/
def loadDocumentsQuery (userRole : String) (partnerId : Option String)
    (folderName : Option String) : Option (List QueryClause) :=
  if userRole = "admin" ∨ userRole = "transferz" then
    if truthy folderName then
      some [.whereEq "folder" (folderName.getD ""), .orderByDesc "createdAt"]
    else
      some [.orderByDesc "createdAt"]
  else if userRole = "partner" ∧ truthy partnerId then
    if truthy folderName then
      some [.whereEq "partnerId" (partnerId.getD ""),
            .whereEq "folder" (folderName.getD ""), .orderByDesc "createdAt"]
    else
      some [.whereEq "partnerId" (partnerId.getD ""), .orderByDesc "createdAt"]
  else
    none

/-! ### Routing (main.js) -/

/-- Consume an expected character sequence from the front of a character
list: `stripChars pat cs` returns the remainder of `cs` after `pat`, or
`none` when `cs` does not start with `pat`. -/
def stripChars : List Char → List Char → Option (List Char)
  | [], cs => some cs
  | _ :: _, [] => none
  | p :: pat, c :: cs => if p = c then stripChars pat cs else none

/-- The regex test `path.match(/^\/partners\/([^\x2f]+)$/)` from
`renderRoute` (main.js line 81): the whole path is `"/partners/"` followed
by a non-empty run of characters none of which is `'/'`; that run is the
captured partner document id. -/
def partnerDetailMatch (path : String) : Option String :=
  match stripChars "/partners/".data path.data with
  | some rest =>
      if rest ≠ [] ∧ '/' ∉ rest then some (String.mk rest) else none
  | none => none

/-- `normalizePath` (main.js lines 188–193): the falsy (empty) path, `"/"`
and `"/home"` all become `"/partners"`; every other path is unchanged. -/
def normalizePath (pathname : String) : String :=
  if pathname = "" ∨ pathname = "/" ∨ pathname = "/home" then "/partners"
  else pathname

/-- The view selected by `renderRoute`. The `/settings` case of the switch
renders an inline Account Settings view carrying the user role (the call to
`renderSettingsPage` is commented out in main.js line 101). -/
inductive Page where
  | partnerDetail (partnerDocId : String)
  | partners
  | documents
  | templates
  | settings (userRole : String)
  | notFound
  deriving DecidableEq, Repr

/-- `renderRoute` dispatch (main.js lines 73–107): the partner-detail regex
is tried on the raw path first; otherwise the switch runs on the normalized
path, with a 404 view as the default case. -/
def renderRoute (path : String) (userRole : String) : Page :=
  match partnerDetailMatch path with
  | some partnerDocId => .partnerDetail partnerDocId
  | none =>
      let normalizedPath := normalizePath path
      if normalizedPath = "/partners" then .partners
      else if normalizedPath = "/documents" then .documents
      else if normalizedPath = "/templates" then .templates
      else if normalizedPath = "/settings" then .settings userRole
      else .notFound

/-! ### The onboarding-stages module (constants/onboardingStages.js) -/

/-- `DEFAULT_STAGES` (constants/onboardingStages.js lines 211–217). -/
def DEFAULT_STAGES : List String :=
  ["Intake", "Testing", "Integration", "Go Live", "Complete"]

/-- The module-level mutable state of `constants/onboardingStages.js`
(`cachedStages`, `stagesPromise`) together with the `stages` field of the
backend document `settings/onboardingStages` (`stored`). In-flight loads
are identified by a promise id. -/
structure StagesState where
  cachedStages : Option (List String)
  stagesPromise : Option Nat
  stored : Option (List String)
  deriving DecidableEq, Repr

/-- What one call to `loadOnboardingStages` does before suspending. -/
inductive LoadOutcome where
  | cached (stages : List String)
  | joined (pid : Nat)
  | fetchStarted (pid : Nat)
  deriving DecidableEq, Repr

/-- The synchronous part of `loadOnboardingStages`
(constants/onboardingStages.js lines 228–272): return the cached list when
it is set, join the in-flight promise when one exists, and only otherwise
start a new remote fetch (identified by `freshPid`) and record it in
`stagesPromise`. -/
def loadOnboardingStagesCall (st : StagesState) (freshPid : Nat) :
    LoadOutcome × StagesState :=
  match st.cachedStages with
  | some s => (.cached s, st)
  | none =>
      match st.stagesPromise with
      | some pid => (.joined pid, st)
      | none => (.fetchStarted freshPid, { st with stagesPromise := some freshPid })

/-- Result of the `getDoc` read inside `loadOnboardingStages`: the `stages`
field of the settings document on success (`none` when the document or the
field is missing), or a thrown error. -/
inductive FetchOutcome where
  | ok (stagesField : Option (List String))
  | error (e : String)
  deriving DecidableEq, Repr

/-- Completion of the in-flight fetch of `loadOnboardingStages`
(constants/onboardingStages.js lines 240–269): a non-empty `stages` field is
cached and returned; a missing or empty field writes the defaults back
(`setDoc` with merge) and caches and returns them; a thrown error is logged
to the console and the defaults are cached and returned. `stagesPromise` is
always cleared by the `finally` block. The first component is the value the
promise resolves with together with the console error, if any. -/
def loadOnboardingStagesComplete (st : StagesState) (r : FetchOutcome) :
    (List String × Option String) × StagesState :=
  match r with
  | .ok (some stages) =>
      if stages.length > 0 then
        ((stages, none),
         { st with cachedStages := some stages, stagesPromise := none })
      else
        ((DEFAULT_STAGES, none),
         { cachedStages := some DEFAULT_STAGES, stagesPromise := none,
           stored := some DEFAULT_STAGES })
  | .ok none =>
      ((DEFAULT_STAGES, none),
       { cachedStages := some DEFAULT_STAGES, stagesPromise := none,
         stored := some DEFAULT_STAGES })
  | .error e =>
      ((DEFAULT_STAGES, some ("Error loading onboarding stages: " ++ e)),
       { st with cachedStages := some DEFAULT_STAGES, stagesPromise := none })

/-- `saveOnboardingStages` (constants/onboardingStages.js lines 280–298):
throw `"Stages must be a non-empty array"` for an empty list before touching
the backend; otherwise run `setDoc` (success is modelled by `writeOk`) and
only after a successful write replace the stored list and assign the cache.
A failed write logs and re-throws the backend error and leaves the state —
in particular `cachedStages` — unchanged. -/
def saveOnboardingStages (writeOk : Bool) (st : StagesState)
    (stages : List String) : Except String Unit × StagesState :=
  if stages.isEmpty then
    (.error "Stages must be a non-empty array", st)
  else if writeOk then
    (.ok (), { st with stored := some stages, cachedStages := some stages })
  else
    (.error "Error saving onboarding stages", st)

/-- `clearStagesCache` (constants/onboardingStages.js lines 303–306). -/
def clearStagesCache (st : StagesState) : StagesState :=
  { st with cachedStages := none, stagesPromise := none }

/-- JS `stagesToUse[0] || null`: the first element, unless the list is empty
or that element is the empty string (falsy), in which case `null`. -/
def headOrNull (l : List String) : Option String :=
  match l.head? with
  | some s => if s = "" then none else some s
  | none => none

/-- JS `Array.prototype.indexOf`: index of the first occurrence, `none`
(JS `-1`) when the value does not occur. -/
def indexOfFirst (a : String) : List String → Option Nat
  | [] => none
  | b :: l => if b = a then some 0 else (indexOfFirst a l).map (· + 1)

/-- The tail of `getNextStage` (constants/onboardingStages.js lines
321–333) factored over the `indexOf` result: a missing occurrence falls
back to `stagesToUse[0] || null`, the last position yields `null`, anything
else yields the immediately following element. -/
def nextFromIndex (stagesToUse : List String) : Option Nat → Option String
  | none => headOrNull stagesToUse
  | some currentIndex =>
      if stagesToUse.length ≤ currentIndex + 1 then none
      else stagesToUse[currentIndex + 1]?

/-- `getNextStage` (constants/onboardingStages.js lines 314–334). The
`stages` parameter defaults to `null` and the effective list is
`stages || cachedStages || DEFAULT_STAGES` (JS `||`: `null` is falsy and any
array, even an empty one, is truthy). A falsy `currentStage` (missing
argument or empty string) is modelled as `""`. -/
def getNextStage (currentStage : String)
    (stages cachedStages : Option (List String)) : Option String :=
  let stagesToUse := stages.getD (cachedStages.getD DEFAULT_STAGES)
  if currentStage = "" then headOrNull stagesToUse
  else
    match indexOfFirst currentStage stagesToUse with
    | none => headOrNull stagesToUse
    | some currentIndex =>
        if stagesToUse.length ≤ currentIndex + 1 then none
        else stagesToUse[currentIndex + 1]?

/-! ### The stage-list editor and settings handlers (pages/Settings.js) -/

/-- JS `String.prototype.trim`, used by the Settings handlers: strip
whitespace from both ends of the string. Embedded structurally over the
character list so that it evaluates. -/
def jsTrim (s : String) : String :=
  String.mk
    (((s.data.dropWhile Char.isWhitespace).reverse.dropWhile
        Char.isWhitespace).reverse)

/-- Exchange the entries at positions `i` and `j` when both are in range:
the JS destructuring swap
`[stages[i], stages[j]] = [stages[j], stages[i]]`. -/
def listSwap {α : Type} (l : List α) (i j : Nat) : List α :=
  match l[i]?, l[j]? with
  | some a, some b => (l.set i b).set j a
  | _, _ => l

/-- The `move-up-btn` click handler (pages/Settings.js lines 378–386):
swap positions `index` and `index - 1` when `index > 0`. -/
def moveUp (stages : List String) (index : Nat) : List String :=
  if index > 0 then listSwap stages index (index - 1) else stages

/-- The `move-down-btn` click handler (pages/Settings.js lines 389–397):
swap positions `index` and `index + 1` when `index < stages.length - 1`. -/
def moveDown (stages : List String) (index : Nat) : List String :=
  if index < stages.length - 1 then listSwap stages index (index + 1) else stages

/-- Whether `renderStagesList` renders the delete button of row `index`
disabled (pages/Settings.js line 364): exactly when at most one stage is
left. -/
def deleteBtnDisabled (stages : List String) : Bool :=
  stages.length ≤ 1

/-- One local operation of the stage editor wired by
`attachStageEventListeners`: add (the prompt may be cancelled, `none`),
rename-on-blur, move up, move down, or delete (guarded by a confirm
dialog). -/
inductive EditorOp where
  | add (nameOpt : Option String)
  | renameBlur (index : Nat) (value : String)
  | moveUpBtn (index : Nat)
  | moveDownBtn (index : Nat)
  | deleteBtn (index : Nat) (confirmed : Bool)

/-- Effect of one editor operation on the local `stages` list
(pages/Settings.js lines 376–443): add pushes the trimmed prompt result when
it is non-empty; blur overwrites entry `index` with the trimmed input when
that is non-empty and differs from the current entry (an empty input only
restores the displayed value); delete splices out one element, but only when
more than one element remains and the user confirmed. -/
def applyEditorOp (stages : List String) : EditorOp → List String
  | .add nameOpt =>
      match nameOpt with
      | some newStageName =>
          if jsTrim newStageName ≠ "" then stages ++ [jsTrim newStageName] else stages
      | none => stages
  | .renameBlur index value =>
      let newValue := jsTrim value
      if newValue ≠ "" ∧ newValue ≠ stages.getD index "" then
        stages.set index newValue
      else stages
  | .moveUpBtn index => moveUp stages index
  | .moveDownBtn index => moveDown stages index
  | .deleteBtn index confirmed =>
      if stages.length > 1 ∧ confirmed then stages.eraseIdx index else stages

/-- The duplicate-removal loop of the Save Changes handler
(pages/Settings.js lines 454–463): walk the list, keep the first occurrence
of each trimmed non-empty name, drop later duplicates, preserving order.
`seen` is the JS `Set` of names already kept. -/
def uniqueStagesLoop (seen : List String) : List String → List String
  | [] => []
  | stage :: rest =>
      let trimmed := jsTrim stage
      if trimmed ≠ "" ∧ trimmed ∉ seen then
        trimmed :: uniqueStagesLoop (trimmed :: seen) rest
      else
        uniqueStagesLoop seen rest

/-- The `try { await saveOnboardingStages(db, l); clearStagesCache(); … }
catch { … }` block shared by the Save Changes and Reset to Default handlers
(pages/Settings.js lines 473–492 and 498–525): on success the cache is
cleared and the saved list reported; a thrown save only shows an error
message and persists nothing. -/
def persistStages (writeOk : Bool) (st : StagesState) (l : List String) :
    Option (List String) × StagesState :=
  match saveOnboardingStages writeOk st l with
  | (.ok _, st') => (some l, clearStagesCache st')
  | (.error _, st') => (none, st')

/-- The `saveStagesBtn` click handler (pages/Settings.js lines 446–493):
abort with an error message when some stage trims to empty; remove duplicate
trimmed names, asking for confirmation (`confirmDedup`) when any were
dropped — declining aborts; then persist through `saveOnboardingStages` and
clear the cache. The first component is the list handed to a successful
`saveOnboardingStages`, or `none` when nothing was persisted. -/
def saveStagesClick (confirmDedup writeOk : Bool) (st : StagesState)
    (stages : List String) : Option (List String) × StagesState :=
  if stages.any (fun s => jsTrim s = "") then (none, st)
  else
    let uniqueStages := uniqueStagesLoop [] stages
    if uniqueStages.length ≠ stages.length then
      if confirmDedup then persistStages writeOk st uniqueStages else (none, st)
    else persistStages writeOk st stages

/-- The `resetStagesBtn` click handler (pages/Settings.js lines 496–527):
after confirmation (`confirmReset`) it saves the literal default list and
clears the cache; the first component is the persisted list, `none` when the
user declined or the save threw. -/
def resetStagesClick (confirmReset writeOk : Bool) (st : StagesState) :
    Option (List String) × StagesState :=
  if confirmReset then
    let defaultStages := ["Intake", "Testing", "Integration", "Go Live", "Complete"]
    persistStages writeOk st defaultStages
  else (none, st)

/-! ### Backend-failure handling of the page renderers -/

/-- What a page renderer leaves in `page-content` after its fetch settles. -/
inductive RenderOutcome (α : Type) where
  | page (snapshot : α)
  | errorCard (messageHtml : String)
  deriving Repr

/-- The try/catch shape shared by `renderPartnersPage`, `renderDocumentsPage`
and `renderTemplatesPage` (e.g. pages/Partners.js lines 38–289): the single
`getDocs` call consumes exactly one response from the queue of backend
responses; a fulfilled response renders the page from the snapshot, a
rejected one logs the page's tag with the backend's error and renders the
page's static error card. The remaining queue is returned untouched: no
second backend attempt is made. -/
def fetchAndRender {α : Type} (logTag errorHtml : String)
    (responses : List (Except String α)) :
    Option ((RenderOutcome α × Option String) × List (Except String α)) :=
  match responses with
  | [] => none
  | .ok snapshot :: rest => some ((.page snapshot, none), rest)
  | .error e :: rest =>
      some ((.errorCard errorHtml, some (logTag ++ " " ++ e)), rest)

/-- The fetch-and-render step of `renderPartnersPage` with its actual
console tag and error markup (pages/Partners.js lines 282–289). -/
def renderPartnersFetch {α : Type} :
    List (Except String α) →
    Option ((RenderOutcome α × Option String) × List (Except String α)) :=
  fetchAndRender "Error fetching partners:"
    "Error loading data. Check console and Firebase Security Rules."

/-- The fetch-and-render step of `renderDocumentsPage`
(pages/Documents.js lines 73–80). -/
def renderDocumentsFetch {α : Type} :
    List (Except String α) →
    Option ((RenderOutcome α × Option String) × List (Except String α)) :=
  fetchAndRender "Error loading documents:"
    "Unable to load documents. Please check console and Firestore rules."

/-- The fetch-and-render step of `renderTemplatesPage`
(pages/Templates.js lines 73–80). -/
def renderTemplatesFetch {α : Type} :
    List (Except String α) →
    Option ((RenderOutcome α × Option String) × List (Except String α)) :=
  fetchAndRender "Error loading templates:"
    "Unable to load templates. Please check console and Firestore rules."

/-! ### Supporting lemmas -/

theorem stripChars_self_append (pat rest : List Char) :
    stripChars pat (pat ++ rest) = some rest := by
  induction pat with
  | nil => rfl
  | cons c pat ih => simp [stripChars, ih]

theorem listSwap_cons {α : Type} (a : α) (l : List α) (i j : Nat) :
    listSwap (a :: l) (i + 1) (j + 1) = a :: listSwap l i j := by
  unfold listSwap
  cases hi : l[i]? <;> cases hj : l[j]? <;>
    simp [List.getElem?_cons_succ, hi, hj]

theorem listSwap_length {α : Type} (l : List α) (i j : Nat) :
    (listSwap l i j).length = l.length := by
  unfold listSwap
  cases hi : l[i]? <;> cases hj : l[j]? <;> simp

theorem listSwap_succ_perm {α : Type} :
    ∀ (l : List α) (i : Nat), i + 1 < l.length → (listSwap l (i + 1) i).Perm l
  | [], _, h => by simp at h
  | [a], _, h => by simp at h
  | a :: b :: l, 0, _ => by
      simp [listSwap]
      exact List.Perm.swap a b l
  | a :: b :: l, i + 1, h => by
      rw [listSwap_cons]
      exact (listSwap_succ_perm (b :: l) i (by simpa using h)).cons a

theorem listSwap_adj_comm {α : Type} :
    ∀ (l : List α) (i : Nat), listSwap l i (i + 1) = listSwap l (i + 1) i
  | [], _ => by simp [listSwap]
  | a :: l, 0 => by cases l <;> simp [listSwap]
  | a :: l, i + 1 => by
      rw [listSwap_cons, listSwap_cons, listSwap_adj_comm l i]

theorem listSwap_spec {α : Type} (l : List α) (i : Nat) (h : i + 1 < l.length) :
    (listSwap l (i + 1) i)[i]? = l[i + 1]? ∧
    (listSwap l (i + 1) i)[i + 1]? = l[i]? ∧
    (∀ j, j ≠ i → j ≠ i + 1 → (listSwap l (i + 1) i)[j]? = l[j]?) ∧
    (listSwap l (i + 1) i).length = l.length ∧
    (listSwap l (i + 1) i).Perm l := by
  have hi : i < l.length := Nat.lt_of_succ_lt h
  obtain ⟨a, ha⟩ : ∃ a, l[i + 1]? = some a := ⟨l[i + 1], List.getElem?_eq_getElem h⟩
  obtain ⟨b, hb⟩ : ∃ b, l[i]? = some b := ⟨l[i], List.getElem?_eq_getElem hi⟩
  have hswap : listSwap l (i + 1) i = (l.set (i + 1) b).set i a := by
    unfold listSwap; rw [ha, hb]
  refine ⟨?_, ?_, ?_, listSwap_length l (i + 1) i, listSwap_succ_perm l i h⟩
  · rw [hswap, ha]
    simp [List.getElem?_set, hi]
  · rw [hswap, hb]
    have : i ≠ i + 1 := by omega
    simp [List.getElem?_set, this, h]
  · intro j hji hjs
    rw [hswap]
    simp [List.getElem?_set, Ne.symm hji, Ne.symm hjs]

theorem uniqueStagesLoop_subl (stages : List String) : ∀ (seen : List String),
    (uniqueStagesLoop seen stages).Sublist (stages.map jsTrim) := by
  induction stages with
  | nil => intro seen; simp [uniqueStagesLoop]
  | cons s rest ih =>
      intro seen
      simp only [uniqueStagesLoop, List.map_cons]
      split
      · exact (ih (jsTrim s :: seen)).cons₂ (jsTrim s)
      · exact (ih seen).cons (jsTrim s)

theorem uniqueStagesLoop_nodup (stages : List String) : ∀ (seen : List String),
    (uniqueStagesLoop seen stages).Nodup ∧
      ∀ x ∈ uniqueStagesLoop seen stages, x ∉ seen := by
  induction stages with
  | nil => intro seen; simp [uniqueStagesLoop]
  | cons s rest ih =>
      intro seen
      simp only [uniqueStagesLoop]
      split
      · next hcond =>
          obtain ⟨hnd, hns⟩ := ih (jsTrim s :: seen)
          refine ⟨List.nodup_cons.mpr ⟨fun hmem => ?_, hnd⟩, ?_⟩
          · exact (hns _ hmem) (List.mem_cons_self _ _)
          · intro x hx
            rcases List.mem_cons.mp hx with rfl | hx'
            · exact hcond.2
            · intro hxs
              exact (hns _ hx') (List.mem_cons_of_mem _ hxs)
      · next hcond =>
          obtain ⟨hnd, hns⟩ := ih seen
          exact ⟨hnd, hns⟩

theorem uniqueStagesLoop_len_le (stages : List String) (seen : List String) :
    (uniqueStagesLoop seen stages).length ≤ stages.length := by
  have := (uniqueStagesLoop_subl stages seen).length_le
  simpa using this

theorem uniqueStagesLoop_eq_of_length (stages : List String) :
    ∀ (seen : List String),
    (uniqueStagesLoop seen stages).length = stages.length →
    uniqueStagesLoop seen stages = stages.map jsTrim := by
  induction stages with
  | nil => intro seen _; simp [uniqueStagesLoop]
  | cons s rest ih =>
      intro seen hlen
      simp only [uniqueStagesLoop] at hlen ⊢
      split at hlen <;> split
      · next hcond _ =>
          simp only [List.length_cons] at hlen
          rw [List.map_cons, ih _ (Nat.succ_injective hlen)]
      · next hcond hcond' => exact absurd hcond hcond'
      · next hcond hcond' => exact absurd hcond' hcond
      · next =>
          have := uniqueStagesLoop_len_le rest seen
          simp only [List.length_cons] at hlen
          omega

theorem persistStages_some (writeOk : Bool) (st : StagesState)
    (l r : List String) (st' : StagesState)
    (h : persistStages writeOk st l = (some r, st')) : r = l ∧ l ≠ [] := by
  unfold persistStages saveOnboardingStages at h
  by_cases hl : l.isEmpty
  · simp [hl] at h
  · refine ⟨?_, by simpa [List.isEmpty_iff] using hl⟩
    by_cases hw : writeOk <;> simp [hl, hw] at h
    exact h.1.symm

theorem indexOfFirst_lt_length (a : String) :
    ∀ (l : List String) (i : Nat), indexOfFirst a l = some i → i < l.length
  | [], i, h => by simp [indexOfFirst] at h
  | b :: l, i, h => by
      by_cases hb : b = a
      · simp [indexOfFirst, hb] at h ⊢
        omega
      · simp [indexOfFirst, hb] at h
        obtain ⟨j, hj, rfl⟩ := h
        have := indexOfFirst_lt_length a l j hj
        simpa using this

theorem indexOfFirst_eq_none (a : String) :
    ∀ (l : List String), indexOfFirst a l = none ↔ a ∉ l
  | [] => by simp [indexOfFirst]
  | b :: l => by
      by_cases hb : b = a
      · simp [indexOfFirst, hb]
      · simp [indexOfFirst, hb, indexOfFirst_eq_none a l, Ne.symm hb]

theorem indexOfFirst_first_occurrence (a : String) :
    ∀ (l : List String) (i : Nat),
      indexOfFirst a l = some i ↔
        (l[i]? = some a ∧ ∀ j, j < i → l[j]? ≠ some a)
  | [], i => by simp [indexOfFirst]
  | b :: l, i => by
      by_cases hb : b = a
      · subst hb
        simp only [indexOfFirst, if_pos rfl]
        constructor
        · rintro h
          obtain rfl : i = 0 := by simpa using h.symm
          exact ⟨by simp, by omega⟩
        · rintro ⟨hget, hfirst⟩
          rcases i with _ | i
          · rfl
          · exact absurd (by simp : (b :: l)[0]? = some b) (hfirst 0 (by omega))
      · simp only [indexOfFirst, if_neg hb, Option.map_eq_some']
        constructor
        · rintro ⟨j, hj, rfl⟩
          obtain ⟨hget, hfirst⟩ := (indexOfFirst_first_occurrence a l j).mp hj
          refine ⟨by simpa using hget, ?_⟩
          intro k hk
          rcases k with _ | k
          · simp only [List.getElem?_cons_zero, ne_eq, Option.some.injEq]
            exact hb
          · simpa using hfirst k (by omega)
        · rintro ⟨hget, hfirst⟩
          rcases i with _ | i
          · exfalso
            apply hb
            have hba := hget
            simp only [List.getElem?_cons_zero, Option.some.injEq] at hba
            exact hba
          · refine ⟨i, (indexOfFirst_first_occurrence a l i).mpr ⟨by simpa using hget, ?_⟩, rfl⟩
            intro k hk
            simpa using hfirst (k + 1) (by omega)

theorem headOrNull_eq_none (l : List String) :
    headOrNull l = none ↔ (l = [] ∨ l.head? = some "") := by
  cases l with
  | nil => simp [headOrNull]
  | cons a l => by_cases ha : a = "" <;> simp [headOrNull, ha]

theorem getNextStage_eq (cs : String) (stages cached : Option (List String)) :
    getNextStage cs stages cached =
      (if cs = "" then headOrNull (stages.getD (cached.getD DEFAULT_STAGES))
       else
         nextFromIndex (stages.getD (cached.getD DEFAULT_STAGES))
           (indexOfFirst cs (stages.getD (cached.getD DEFAULT_STAGES)))) := by
  unfold getNextStage
  by_cases hcs : cs = ""
  · simp [hcs]
  · simp only [if_neg hcs]
    cases indexOfFirst cs (stages.getD (cached.getD DEFAULT_STAGES)) <;> rfl

/-! ### Claim theorems -/

/-- Claim C1 (confirmed): role-scoped query construction. For every query
one of the roster/library renderers builds (`renderPartnersPage`, both
variants of `renderDocumentsPage`, `renderTemplatesPage`): when `userRole`
is `admin` or `transferz` the query carries no
`where("partnerId","==",·)` clause, and when `userRole` is `partner` with a
non-null `partnerId`, every query built carries
`where("partnerId","==",partnerId)`. -/
theorem partner_scope_query_filter (userRole : String) (partnerId : Option String) :
    ((userRole = "admin" ∨ userRole = "transferz") →
      ∀ q : List QueryClause,
        (partnersQuery userRole partnerId = some q ∨
         documentsQuery userRole partnerId = some q ∨
         templatesQuery userRole partnerId = some q ∨
         (∃ folderName, loadDocumentsQuery userRole partnerId folderName = some q)) →
        ∀ v, QueryClause.whereEq "partnerId" v ∉ q) ∧
    (∀ p q,
        partnerId = some p →
        (partnersQuery "partner" partnerId = some q ∨
         documentsQuery "partner" partnerId = some q ∨
         templatesQuery "partner" partnerId = some q ∨
         (∃ folderName, loadDocumentsQuery "partner" partnerId folderName = some q)) →
        QueryClause.whereEq "partnerId" p ∈ q) := by
  constructor
  · intro hrole q hq v
    have h1 : partnersQuery userRole partnerId = some [] := by
      rcases hrole with rfl | rfl <;> rfl
    have h2 : documentsQuery userRole partnerId =
        some [.orderByDesc "updatedAt"] := by
      rcases hrole with rfl | rfl <;> rfl
    have h3 : templatesQuery userRole partnerId =
        some [.orderByDesc "updatedAt"] := by
      rcases hrole with rfl | rfl <;> rfl
    have h4 : ∀ folderName, loadDocumentsQuery userRole partnerId folderName =
        if truthy folderName then
          some [.whereEq "folder" (folderName.getD ""), .orderByDesc "createdAt"]
        else some [.orderByDesc "createdAt"] := by
      rcases hrole with rfl | rfl <;> intro folderName <;> rfl
    rcases hq with hq | hq | hq | ⟨f, hq⟩
    · rw [h1] at hq; obtain rfl := Option.some.inj hq; simp
    · rw [h2] at hq; obtain rfl := Option.some.inj hq; simp
    · rw [h3] at hq; obtain rfl := Option.some.inj hq; simp
    · rw [h4 f] at hq
      split at hq <;> obtain rfl := Option.some.inj hq <;> simp
  · rintro p q rfl hq
    cases hpe : p.isEmpty
    · have ht : truthy (some p) = true := by simp [truthy, hpe]
      rcases hq with hq | hq | hq | ⟨f, hq⟩
      · have he : partnersQuery "partner" (some p) =
            some [.whereEq "partnerId" p] := by
          simp [partnersQuery, ht]
        rw [he] at hq; obtain rfl := Option.some.inj hq; simp
      · have he : documentsQuery "partner" (some p) =
            some [.whereEq "partnerId" p, .orderByDesc "updatedAt"] := by
          simp [documentsQuery, ht]
        rw [he] at hq; obtain rfl := Option.some.inj hq; simp
      · have he : templatesQuery "partner" (some p) =
            some [.whereEq "partnerId" p, .orderByDesc "updatedAt"] := by
          simp [templatesQuery, ht]
        rw [he] at hq; obtain rfl := Option.some.inj hq; simp
      · have he : loadDocumentsQuery "partner" (some p) f =
            if truthy f then
              some [.whereEq "partnerId" p, .whereEq "folder" (f.getD ""),
                    .orderByDesc "createdAt"]
            else some [.whereEq "partnerId" p, .orderByDesc "createdAt"] := by
          simp [loadDocumentsQuery, ht]
        rw [he] at hq
        split at hq <;> obtain rfl := Option.some.inj hq <;> simp
    · have ht : truthy (some p) = false := by simp [truthy, hpe]
      rcases hq with hq | hq | hq | ⟨f, hq⟩ <;>
        simp [partnersQuery, documentsQuery, templatesQuery,
          loadDocumentsQuery, ht] at hq

/-- Claim C2 (confirmed): stage-list save invariant. `saveOnboardingStages`
throws — persisting nothing — whenever `stages` is empty, and any list the
Settings Save Changes handler actually persists is non-empty and free of
duplicate names, being either the user's list (when it already had no
duplicate trimmed names) or its first-occurrence-keeping, order-preserving
de-duplication (a sublist of the trimmed input). -/
theorem save_stage_list_nonempty_nodup :
    (∀ (writeOk : Bool) (st : StagesState),
        saveOnboardingStages writeOk st [] =
          (.error "Stages must be a non-empty array", st)) ∧
    (∀ (confirmDedup writeOk : Bool) (st : StagesState)
        (stages l : List String) (st' : StagesState),
        saveStagesClick confirmDedup writeOk st stages = (some l, st') →
        l ≠ [] ∧ l.Nodup ∧
          (l = stages ∨ l.Sublist (stages.map jsTrim))) := by
  refine ⟨fun writeOk st => rfl, ?_⟩
  intro confirmDedup writeOk st stages l st' h
  unfold saveStagesClick at h
  dsimp only at h
  split at h
  · exact absurd h (by simp)
  · split at h
    · split at h
      · obtain ⟨rfl, hne⟩ := persistStages_some _ _ _ _ _ h
        exact ⟨hne, (uniqueStagesLoop_nodup stages []).1,
          Or.inr (uniqueStagesLoop_subl stages [])⟩
      · exact absurd h (by simp)
    · next hlen =>
        obtain ⟨rfl, hne⟩ := persistStages_some _ _ _ _ _ h
        have hlen' : (uniqueStagesLoop [] l).length = l.length := by
          by_contra hc
          exact hlen hc
        have heq := uniqueStagesLoop_eq_of_length l [] hlen'
        have hmapnd : (l.map jsTrim).Nodup := by
          rw [← heq]
          exact (uniqueStagesLoop_nodup l []).1
        exact ⟨hne, hmapnd.of_map, Or.inl rfl⟩

/-- Claim C3 (confirmed): request coalescing in the stages cache. A call to
`loadOnboardingStages` returns the cached list without any remote read when
`cachedStages` is set; returns the in-flight promise unchanged when one is
recorded; starts a remote fetch only when neither exists, recording the new
promise — so a fetch can only start while no other is in flight. -/
theorem stages_cache_coalescing (st : StagesState) (freshPid : Nat) :
    (∀ s, st.cachedStages = some s →
        loadOnboardingStagesCall st freshPid = (.cached s, st)) ∧
    (∀ pid, st.cachedStages = none → st.stagesPromise = some pid →
        loadOnboardingStagesCall st freshPid = (.joined pid, st)) ∧
    (st.cachedStages = none → st.stagesPromise = none →
        loadOnboardingStagesCall st freshPid =
          (.fetchStarted freshPid, { st with stagesPromise := some freshPid })) ∧
    (∀ q st', loadOnboardingStagesCall st freshPid = (.fetchStarted q, st') →
        st.stagesPromise = none ∧ st'.stagesPromise = some q) := by
  obtain ⟨c, p, d⟩ := st
  refine ⟨?_, ?_, ?_, ?_⟩ <;>
    cases c <;> cases p <;>
    simp [loadOnboardingStagesCall]

/-- Claim C4 (confirmed): route-to-renderer dispatch. `normalizePath` maps
the empty path, `/` and `/home` to `/partners`; `renderRoute` dispatches
every path of the form `/partners/<id>` (non-empty id without a slash) to
the partner-detail renderer, `/partners` to the Partners renderer,
`/documents` to Documents, `/templates` to Templates, `/settings` to the
settings view, and renders a 404 view for every other path. -/
theorem route_dispatch_correct (userRole : String) :
    (normalizePath "" = "/partners" ∧ normalizePath "/" = "/partners" ∧
     normalizePath "/home" = "/partners") ∧
    (∀ partnerDocId : String,
        partnerDocId.data ≠ [] → '/' ∉ partnerDocId.data →
        renderRoute ("/partners/" ++ partnerDocId) userRole =
          .partnerDetail partnerDocId) ∧
    (renderRoute "/partners" userRole = .partners ∧
     renderRoute "/documents" userRole = .documents ∧
     renderRoute "/templates" userRole = .templates ∧
     renderRoute "/settings" userRole = .settings userRole) ∧
    (∀ path, partnerDetailMatch path = none →
        normalizePath path ∉ ["/partners", "/documents", "/templates", "/settings"] →
        renderRoute path userRole = .notFound) := by
  refine ⟨⟨rfl, rfl, rfl⟩, ?_, ⟨rfl, rfl, rfl, rfl⟩, ?_⟩
  · intro partnerDocId h1 h2
    have hd : ("/partners/" ++ partnerDocId).data =
        "/partners/".data ++ partnerDocId.data := String.data_append ..
    have hmatch : partnerDetailMatch ("/partners/" ++ partnerDocId) =
        some partnerDocId := by
      unfold partnerDetailMatch
      rw [hd, stripChars_self_append]
      simp only [h1, h2, ne_eq, not_false_iff, and_self, if_true]
    unfold renderRoute
    rw [hmatch]
  · intro path hmatch hmem
    simp only [List.mem_cons, List.not_mem_nil, or_false, not_or] at hmem
    obtain ⟨m1, m2, m3, m4⟩ := hmem
    unfold renderRoute
    rw [hmatch]
    simp only [m1, m2, m3, m4, if_false]

/-- Claim C5 (confirmed): stage reorder semantics. For `0 < i < length`,
move-up at `i` exchanges positions `i-1` and `i` and leaves every other
position unchanged; for `i < length - 1`, move-down at `i` exchanges
positions `i` and `i+1` likewise; both preserve the length and the multiset
of elements. -/
theorem stage_reorder_swap (l : List String) (i : Nat) :
    (0 < i → i < l.length →
      (moveUp l i)[i - 1]? = l[i]? ∧ (moveUp l i)[i]? = l[i - 1]? ∧
      (∀ j, j ≠ i → j ≠ i - 1 → (moveUp l i)[j]? = l[j]?) ∧
      (moveUp l i).length = l.length ∧ (moveUp l i).Perm l) ∧
    (i < l.length - 1 →
      (moveDown l i)[i]? = l[i + 1]? ∧ (moveDown l i)[i + 1]? = l[i]? ∧
      (∀ j, j ≠ i → j ≠ i + 1 → (moveDown l i)[j]? = l[j]?) ∧
      (moveDown l i).length = l.length ∧ (moveDown l i).Perm l) := by
  constructor
  · intro h0 hlen
    obtain ⟨k, rfl⟩ : ∃ k, i = k + 1 := ⟨i - 1, by omega⟩
    have hup : moveUp l (k + 1) = listSwap l (k + 1) k := by
      simp [moveUp]
    obtain ⟨g1, g2, g3, g4, g5⟩ := listSwap_spec l k hlen
    simp only [hup, Nat.add_sub_cancel]
    exact ⟨g1, g2, fun j hj1 hj2 => g3 j hj2 hj1, g4, g5⟩
  · intro hlt
    have hlen : i + 1 < l.length := by omega
    have hdown : moveDown l i = listSwap l (i + 1) i := by
      simp [moveDown, hlt, listSwap_adj_comm]
    obtain ⟨g1, g2, g3, g4, g5⟩ := listSwap_spec l i hlen
    rw [hdown]
    exact ⟨g1, g2, g3, g4, g5⟩

/-- Witness for C5 at the concrete list `["A", "B", "C"]` and index 1. -/
theorem stage_reorder_swap_witness :
    (moveUp ["A", "B", "C"] 1)[0]? = some "B" ∧
    (moveUp ["A", "B", "C"] 1)[1]? = some "A" ∧
    (moveUp ["A", "B", "C"] 1).Perm ["A", "B", "C"] := by
  have h := (stage_reorder_swap ["A", "B", "C"] 1).1 (by decide) (by decide)
  exact ⟨by simpa using h.1, by simpa using h.2.1, h.2.2.2.2⟩

/-- Claim C6 counterexample: `loadOnboardingStages` does more than surface a
backend failure. With the fetch in flight and a stored configuration
`["Intake"]`, a rejected read makes the promise resolve successfully with
`DEFAULT_STAGES`, installs `DEFAULT_STAGES` in `cachedStages`, and a
subsequent call then returns that fallback from the cache — failure-recovery
behavior, not an error rendering. -/
theorem stages_loader_error_fallback :
    (loadOnboardingStagesComplete ⟨none, some 0, some ["Intake"]⟩
        (.error "unavailable")).1.1 = DEFAULT_STAGES ∧
    (loadOnboardingStagesComplete ⟨none, some 0, some ["Intake"]⟩
        (.error "unavailable")).2.cachedStages = some DEFAULT_STAGES ∧
    (loadOnboardingStagesCall
        (loadOnboardingStagesComplete ⟨none, some 0, some ["Intake"]⟩
          (.error "unavailable")).2 1).1 = .cached DEFAULT_STAGES :=
  ⟨rfl, rfl, rfl⟩

/-- Claim C6 as amended (proved): the page renderers
(`renderPartnersPage`, `renderDocumentsPage`, `renderTemplatesPage`) consume
exactly one backend response per invocation; on a rejection they only log
the backend's error and render their static error card, with no retry.
`loadOnboardingStages` likewise makes no second attempt and logs the error,
but instead of surfacing the failure it resolves with `DEFAULT_STAGES` and
caches that fallback, leaving the stored configuration untouched. -/
theorem error_surfacing_no_retry {α : Type} (e : String)
    (rest : List (Except String α)) (st : StagesState) :
    (renderPartnersFetch (.error e :: rest) =
      some ((.errorCard
               "Error loading data. Check console and Firebase Security Rules.",
             some ("Error fetching partners: " ++ e)), rest)) ∧
    (renderDocumentsFetch (.error e :: rest) =
      some ((.errorCard
               "Unable to load documents. Please check console and Firestore rules.",
             some ("Error loading documents: " ++ e)), rest)) ∧
    (renderTemplatesFetch (.error e :: rest) =
      some ((.errorCard
               "Unable to load templates. Please check console and Firestore rules.",
             some ("Error loading templates: " ++ e)), rest)) ∧
    ((loadOnboardingStagesComplete st (.error e)).1 =
       (DEFAULT_STAGES, some ("Error loading onboarding stages: " ++ e)) ∧
     (loadOnboardingStagesComplete st (.error e)).2 =
       { st with cachedStages := some DEFAULT_STAGES, stagesPromise := none }) :=
  ⟨rfl, rfl, rfl, rfl, rfl⟩

/-- Claim C7 (confirmed): reset semantics. The Reset to Default handler
persists exactly the ordered list
`["Intake", "Testing", "Integration", "Go Live", "Complete"]` — the same
`DEFAULT_STAGES` list the loader falls back to — replacing whatever stage
configuration was stored before, and clearing the cache. -/
theorem reset_persists_defaults (st : StagesState) :
    resetStagesClick true true st =
      (some DEFAULT_STAGES,
       { cachedStages := none, stagesPromise := none,
         stored := some DEFAULT_STAGES }) ∧
    DEFAULT_STAGES = ["Intake", "Testing", "Integration", "Go Live", "Complete"] :=
  ⟨rfl, rfl⟩

/-- Claim C9 (confirmed): save atomicity toward the cache.
`saveOnboardingStages` assigns `cachedStages` (and the stored list) only
when the backend write succeeds; when the write throws, the error is
re-thrown and the whole state — in particular `cachedStages` — keeps its
previous value. -/
theorem save_cache_atomic (st : StagesState) (stages : List String)
    (h : stages ≠ []) :
    (saveOnboardingStages true st stages).1 = .ok () ∧
    (saveOnboardingStages true st stages).2.cachedStages = some stages ∧
    (saveOnboardingStages true st stages).2.stored = some stages ∧
    (saveOnboardingStages false st stages).1 =
      .error "Error saving onboarding stages" ∧
    (saveOnboardingStages false st stages).2 = st := by
  have he : stages.isEmpty = false := by
    simpa [List.isEmpty_iff] using h
  simp [saveOnboardingStages, he]

/-- Witness for C9 at the concrete state with an old cache and the new
one-element list `["Kickoff"]`. -/
theorem save_cache_atomic_witness :
    (saveOnboardingStages true ⟨some ["Old"], none, some ["Old"]⟩
        ["Kickoff"]).2.cachedStages = some ["Kickoff"] ∧
    (saveOnboardingStages false ⟨some ["Old"], none, some ["Old"]⟩
        ["Kickoff"]).2 = ⟨some ["Old"], none, some ["Old"]⟩ := by
  have h := save_cache_atomic ⟨some ["Old"], none, some ["Old"]⟩ ["Kickoff"]
    (by decide)
  exact ⟨h.2.1, h.2.2.2.2⟩

/-- Claim C8 (confirmed): implicit editor non-emptiness. Delete removes
exactly one element and only executes when more than one element remains
(the delete button is disabled exactly when `length ≤ 1`); add,
rename-on-blur, move-up and move-down never shrink the list; hence any
sequence of editor operations keeps a non-empty local list non-empty. -/
theorem editor_nonempty_invariant :
    (∀ (stages : List String) (index : Nat) (confirmed : Bool),
        deleteBtnDisabled stages = true →
        applyEditorOp stages (.deleteBtn index confirmed) = stages) ∧
    (∀ (stages : List String) (index : Nat),
        stages.length > 1 → index < stages.length →
        (applyEditorOp stages (.deleteBtn index true)).length =
          stages.length - 1) ∧
    (∀ (stages : List String) (op : EditorOp),
        (∀ index confirmed, op ≠ .deleteBtn index confirmed) →
        stages.length ≤ (applyEditorOp stages op).length) ∧
    (∀ (ops : List EditorOp) (stages : List String),
        stages ≠ [] → ops.foldl applyEditorOp stages ≠ []) := by
  have step : ∀ (stages : List String) (op : EditorOp),
      stages ≠ [] → applyEditorOp stages op ≠ [] := by
    intro stages op hne
    rw [← List.length_pos] at hne
    rw [← List.length_pos]
    cases op with
    | add nameOpt =>
        cases nameOpt with
        | none => simpa [applyEditorOp] using hne
        | some name =>
            by_cases ht : jsTrim name = "" <;> simp [applyEditorOp, ht]
            omega
    | renameBlur index value =>
        simp only [applyEditorOp]
        split
        · simpa [List.length_set] using hne
        · exact hne
    | moveUpBtn index =>
        simp only [applyEditorOp, moveUp]
        split
        · simpa [listSwap_length] using hne
        · exact hne
    | moveDownBtn index =>
        simp only [applyEditorOp, moveDown]
        split
        · simpa [listSwap_length] using hne
        · exact hne
    | deleteBtn index confirmed =>
        simp only [applyEditorOp]
        split
        · next hcond =>
            obtain ⟨h1, _⟩ := hcond
            simp only [List.length_eraseIdx]
            split <;> omega
        · exact hne
  refine ⟨?_, ?_, ?_, ?_⟩
  · intro stages index confirmed hd
    have hle : stages.length ≤ 1 := by simpa [deleteBtnDisabled] using hd
    have : ¬ (stages.length > 1 ∧ confirmed = true) := by
      rintro ⟨h1, _⟩; omega
    simp only [applyEditorOp, if_neg this]
  · intro stages index h1 h2
    simp [applyEditorOp, h1, List.length_eraseIdx, h2]
  · intro stages op hnd
    cases op with
    | add nameOpt =>
        cases nameOpt with
        | none => simp [applyEditorOp]
        | some name =>
            by_cases ht : jsTrim name = "" <;> simp [applyEditorOp, ht]
    | renameBlur index value =>
        simp only [applyEditorOp]
        split <;> simp [List.length_set]
    | moveUpBtn index =>
        simp only [applyEditorOp, moveUp]
        split <;> simp [listSwap_length]
    | moveDownBtn index =>
        simp only [applyEditorOp, moveDown]
        split <;> simp [listSwap_length]
    | deleteBtn index confirmed => exact absurd rfl (hnd index confirmed)
  · intro ops
    induction ops with
    | nil => intro stages h; simpa using h
    | cons op ops ih =>
        intro stages h
        simp only [List.foldl_cons]
        exact ih _ (step stages op h)

/-- Witness for C8: a concrete operation sequence — add a stage, then two
confirmed deletes — leaves the singleton starting list non-empty. -/
theorem editor_nonempty_invariant_witness :
    List.foldl applyEditorOp ["Intake"]
      [.add (some "QA"), .deleteBtn 0 true, .deleteBtn 0 true] ≠ [] :=
  editor_nonempty_invariant.2.2.2
    [.add (some "QA"), .deleteBtn 0 true, .deleteBtn 0 true] ["Intake"]
    (by decide)

/-- Claim C10 counterexample: with the non-empty effective list
`["", "Testing"]` and a `currentStage` that does not occur in it,
`getNextStage` returns `null` — not the list's first element `""` — because
of the falsy-guarding `stagesToUse[0] || null`. -/
theorem getNextStage_falsy_head :
    getNextStage "Onboarded" (some ["", "Testing"]) none = none ∧
    (["", "Testing"] : List String) ≠ [] ∧
    "Onboarded" ∉ (["", "Testing"] : List String) ∧
    (["", "Testing"] : List String).head? = some "" := by
  refine ⟨rfl, by simp, by simp, rfl⟩

/-- Claim C10 as amended (proved): over the effective list `E`
(`stages || cachedStages || DEFAULT_STAGES`), when `currentStage` is falsy
or does not occur in `E`, `getNextStage` returns `E`'s first element guarded
by JS falsiness (`null` when `E` is empty or its first element is the empty
string); when the first occurrence of `currentStage` is at index `i` with
`i+1 < E.length` it returns the element immediately after it; and it returns
`null` exactly when that first occurrence sits at the last position, or the
first-element fallback applies with `E` empty or headed by the empty
string. -/
theorem getNextStage_semantics (currentStage : String)
    (stages cachedStages : Option (List String)) :
    ∀ E, E = stages.getD (cachedStages.getD DEFAULT_STAGES) →
      (((currentStage = "" ∨ indexOfFirst currentStage E = none) →
          getNextStage currentStage stages cachedStages = headOrNull E) ∧
       (∀ i, currentStage ≠ "" → indexOfFirst currentStage E = some i →
          i + 1 < E.length →
          getNextStage currentStage stages cachedStages = E[i + 1]?) ∧
       (getNextStage currentStage stages cachedStages = none ↔
          ((∃ i, currentStage ≠ "" ∧ indexOfFirst currentStage E = some i ∧
                 i + 1 = E.length) ∨
           ((currentStage = "" ∨ indexOfFirst currentStage E = none) ∧
            (E = [] ∨ E.head? = some ""))))) := by
  rintro E hE
  have hgse : getNextStage currentStage stages cachedStages =
      (if currentStage = "" then headOrNull E
       else nextFromIndex E (indexOfFirst currentStage E)) := by
    rw [getNextStage_eq, hE]
  rw [hgse]
  clear hgse
  by_cases hcs : currentStage = ""
  · rw [if_pos hcs]
    refine ⟨fun _ => rfl, fun i hne _ _ => absurd hcs hne, ?_⟩
    rw [headOrNull_eq_none]
    constructor
    · intro h
      exact Or.inr ⟨Or.inl hcs, h⟩
    · rintro (⟨i, hne, _⟩ | ⟨_, h⟩)
      · exact absurd hcs hne
      · exact h
  · rw [if_neg hcs]
    cases hidx : indexOfFirst currentStage E with
    | none =>
        simp only [nextFromIndex]
        refine ⟨fun _ => trivial, ?_, ?_⟩
        · intro i _ hsome
          exact absurd hsome (by simp)
        · rw [headOrNull_eq_none]
          constructor
          · intro h
            exact Or.inr ⟨Or.inr trivial, h⟩
          · rintro (⟨i, _, hsome, _⟩ | ⟨_, h⟩)
            · exact absurd hsome (by simp)
            · exact h
    | some i =>
        have hlt : i < E.length := indexOfFirst_lt_length _ _ _ hidx
        simp only [nextFromIndex]
        refine ⟨?_, ?_, ?_⟩
        · rintro (h | h)
          · exact absurd h hcs
          · exact absurd h (by simp)
        · intro i' _ hsome hbound
          obtain rfl : i' = i := Option.some.inj hsome.symm
          rw [if_neg (by omega)]
        · constructor
          · intro h
            by_cases hb : E.length ≤ i + 1
            · exact Or.inl ⟨i, hcs, rfl, by omega⟩
            · rw [if_neg hb] at h
              rw [List.getElem?_eq_getElem (by omega : i + 1 < E.length)] at h
              exact absurd h (by simp)
          · rintro (⟨i', hne, hsome, hlast⟩ | ⟨hor, _⟩)
            · obtain rfl : i' = i := Option.some.inj hsome.symm
              rw [if_pos (by omega)]
            · rcases hor with h | h
              · exact absurd h hcs
              · exact absurd h (by simp)

/-- Witness for the amended C10 at `currentStage = "Intake"` on the default
list: the first occurrence is at index 0, so the successor `"Testing"` is
returned. -/
theorem getNextStage_semantics_witness :
    getNextStage "Intake" none none = some "Testing" := by
  have h := (getNextStage_semantics "Intake" none none DEFAULT_STAGES rfl).2.1
    0 (by decide) (by decide) (by decide)
  simpa using h

/-- Witness for C1: the admin partners query has no partnerId clause, and a
partner-scoped templates query carries `where("partnerId","==","p7")`. -/
theorem partner_scope_query_filter_witness :
    QueryClause.whereEq "partnerId" "p0" ∉ ([] : List QueryClause) ∧
    QueryClause.whereEq "partnerId" "p7" ∈
      [QueryClause.whereEq "partnerId" "p7",
       QueryClause.orderByDesc "updatedAt"] :=
  ⟨(partner_scope_query_filter "admin" none).1 (Or.inl rfl) []
      (Or.inl rfl) "p0",
   (partner_scope_query_filter "partner" (some "p7")).2 "p7"
      [QueryClause.whereEq "partnerId" "p7", QueryClause.orderByDesc "updatedAt"]
      rfl (Or.inr (Or.inr (Or.inl rfl)))⟩

/-- Witness for C2 at the list `["A", "B", "A "]`, whose save persists the
de-duplicated `["A", "B"]`. -/
theorem save_stage_list_nonempty_nodup_witness :
    (["A", "B"] : List String) ≠ [] ∧ (["A", "B"] : List String).Nodup ∧
    ((["A", "B"] : List String) = ["A", "B", "A "] ∨
     (["A", "B"] : List String).Sublist
       ((["A", "B", "A "] : List String).map jsTrim)) :=
  save_stage_list_nonempty_nodup.2 true true ⟨none, none, none⟩
    ["A", "B", "A "] ["A", "B"] ⟨none, none, some ["A", "B"]⟩ (by decide)

/-- Witness for C3 at a state with a fetch in flight: a second call joins
promise 2 without starting a new fetch. -/
theorem stages_cache_coalescing_witness :
    loadOnboardingStagesCall ⟨none, some 2, none⟩ 5 =
      (.joined 2, ⟨none, some 2, none⟩) :=
  (stages_cache_coalescing ⟨none, some 2, none⟩ 5).2.1 2 rfl rfl

/-- Witness for C4: a concrete detail path and a concrete unknown path. -/
theorem route_dispatch_correct_witness :
    renderRoute "/partners/abc123" "admin" = .partnerDetail "abc123" ∧
    renderRoute "/unknown" "admin" = .notFound :=
  ⟨(route_dispatch_correct "admin").2.1 "abc123" (by decide) (by decide),
   (route_dispatch_correct "admin").2.2.2 "/unknown" rfl (by decide)⟩

end OnboardingHub
